import Mathlib

/-!
Shallow embedding of `src/utils/embed.py` from the hyperbolic-learning
repository: a thin wrapper around gensim's Poincaré model (training and
saving embeddings), pandas-based loading of embedding files, and a K-fold
cross-validation helper built on scikit-learn.

External library calls (gensim, printing) are modelled as events recorded
in a trace; deterministic external algorithms that the wrapper's observable
behaviour depends on (scikit-learn's `KFold` with `shuffle=False`, numpy's
`argmax`, pandas' delimited-text parsing) are embedded explicitly.
Randomized or numeric externals (`train_test_split`, `f1_score`, the
classifier's `fit`/`predict`) are passed in as explicit function
parameters, since the wrapper only forwards data to them.
-/

namespace Embed

/- ### train_embeddings -/

/-- Calls to the external gensim library made by `train_embeddings`.
`P` is the type of the forwarded numeric parameters (sizes, rates, counts);
the wrapper treats them opaquely. -/
inductive GEvent (P : Type) where
  | poincareRelations (file_path : String) (delimiter : String)
  | poincareInit (size alpha burn_in burn_in_alpha workers negative : P)
  | trainCall (epochs print_every batch_size : P)
  | saveWord2vecFormat (output_path : String)
deriving DecidableEq

/-- Result of `train_embeddings`: the trace of external calls, and the
Python return value (`none` models Python's `None` from a bare `return`). -/
structure TrainResult (P : Type) where
  trace : List (GEvent P)
  ret : Option Unit
deriving DecidableEq

/-- Function `train_embeddings` from `src/utils/embed.py`: builds a
`PoincareRelations` reader on `input_path`/`delimiter`, a `PoincareModel`
forwarding `size, alpha, burn_in, burn_in_alpha, workers, negative`,
trains it forwarding `epochs, print_every, batch_size`, and saves the
vectors to `output_path` in word2vec text format. In the source the
numeric parameters default to
`size=2, alpha=0.1, burn_in=10, burn_in_alpha=0.01, workers=1,
negative=10, epochs=100, print_every=500, batch_size=10`. -/
def train_embeddings {P : Type} (input_path delimiter output_path : String)
    (size alpha burn_in burn_in_alpha workers negative epochs print_every batch_size : P) :
    TrainResult P :=
  ⟨[GEvent.poincareRelations input_path delimiter,
    GEvent.poincareInit size alpha burn_in burn_in_alpha workers negative,
    GEvent.trainCall epochs print_every batch_size,
    GEvent.saveWord2vecFormat output_path],
   none⟩

/-- The file paths written by a trace of gensim calls: only
`save_word2vec_format` writes a file. -/
def writesOf {P : Type} (t : List (GEvent P)) : List String :=
  t.filterMap fun e =>
    match e with
    | GEvent.saveWord2vecFormat p => some p
    | _ => none

/- ### load_embeddings -/

/-- A pandas dataframe, modelled at the token level: a (possibly
multi-level) index with one optional name per level and one tuple of
index values per row, column labels, and rows of cells aligned with the
columns. The default `RangeIndex` is a single unnamed level holding the
row numbers. -/
structure DataFrame where
  indexNames : List (Option String)
  index : List (List String)
  columns : List String
  rows : List (List String)
deriving DecidableEq

/-- Splitting a line into fields on the single-space delimiter, as the
pandas parser does for `delimiter=' '`: consecutive spaces yield empty
fields, and the empty line yields one empty field. -/
def splitSpace (s : String) : List String :=
  (s.data.foldr
    (fun c acc =>
      if c = ' ' then [] :: acc
      else
        match acc with
        | [] => [[c]]
        | t :: rest => (c :: t) :: rest)
    [[]]).map List.asString

/-- Model of `pd.read_table(file_path, delimiter=' ')` at the token level.
Blank lines are skipped (`skip_blank_lines=True`); the first remaining
line is the header and every line is split on single spaces. The expected
field count is the larger of the header's and the first data row's; data
rows with more fields raise a tokenizing `ParserError`, shorter rows are
padded with `NaN`. When the first data row has `m ≥ 1` more fields than
the header, the leading `m` fields of every row form an implicit unnamed
index (`m` levels, a MultiIndex when `m ≥ 2`); otherwise the index is the
default range index. A file with no non-blank lines is an
`EmptyDataError`. -/
def readTableSpace (lines : List String) : Except String DataFrame :=
  match lines.filter fun l => l ≠ "" with
  | [] => Except.error "EmptyDataError"
  | header :: body =>
    let h := splitSpace header
    let rs := body.map fun l => splitSpace l
    match rs with
    | [] => Except.ok ⟨[none], [], h, []⟩
    | r0 :: _ =>
      let expected := max h.length r0.length
      if rs.all fun r => r.length ≤ expected then
        let padded := rs.map fun r => r ++ List.replicate (expected - r.length) "NaN"
        let m := expected - h.length
        if m = 0 then
          Except.ok ⟨[none], (List.range rs.length).map fun i => [toString i], h, padded⟩
        else
          Except.ok ⟨List.replicate m none, padded.map (List.take m), h,
            padded.map (List.drop m)⟩
      else
        Except.error "ParserError"

/-- Model of `DataFrame.reset_index()`: every index level becomes a
leading column — an unnamed single level is named `index`, unnamed levels
of a MultiIndex are named `level_0`, `level_1`, ... — and a fresh range
index is installed. -/
def resetIndex (df : DataFrame) : DataFrame :=
  let names := List.zipWith
    (fun (i : Nat) (o : Option String) =>
      o.getD (if df.indexNames.length = 1 then "index" else "level_" ++ toString i))
    (List.range df.indexNames.length) df.indexNames
  ⟨[none], (List.range df.rows.length).map fun i => [toString i],
   names ++ df.columns,
   List.zipWith (fun a b => a ++ b) df.index df.rows⟩

/-- Assignment `df.columns = names`: pandas raises a length-mismatch
`ValueError` unless `names` has exactly as many labels as the frame has
columns. -/
def setColumns (df : DataFrame) (names : List String) : Except String DataFrame :=
  if names.length = df.columns.length then
    Except.ok ⟨df.indexNames, df.index, names, df.rows⟩
  else
    Except.error "ValueError: Length mismatch"

/-- Function `load_embeddings` from `src/utils/embed.py`: reads the file with
`pd.read_table(file_path, delimiter=' ')` — note the source hardcodes the
single-space delimiter and never uses the `delim` parameter — then
`reset_index()` and assigns columns `['node', 'x', 'y']`.
`lines` stands for the contents of the file at `file_path`. In the source
`delim` defaults to a single space. -/
def load_embeddings (lines : List String) (delim : String) : Except String DataFrame := do
  let emb ← readTableSpace lines
  let emb := resetIndex emb
  setColumns emb ["node", "x", "y"]

/- ### scikit-learn KFold (shuffle=False) -/

/-- Size of fold `i` in scikit-learn's `KFold(n_splits=k)` over `n`
samples with `shuffle=False`: the first `n % k` folds have one extra
sample on top of `n / k`. -/
def foldSize (n k i : Nat) : Nat :=
  n / k + if i < n % k then 1 else 0

/-- Start of fold `i`: the total size of the preceding folds (the
`current` pointer accumulated by scikit-learn's split loop). -/
def foldStart (n k : Nat) : Nat → Nat
  | 0 => 0
  | i + 1 => foldStart n k i + foldSize n k i

/-- Test-index blocks produced by `KFold(n_splits=k).split` on `n`
samples with `shuffle=False`: `k` consecutive blocks of indices. -/
def kfTestIndices (n k : Nat) : List (List Nat) :=
  (List.range k).map fun i => List.range' (foldStart n k i) (foldSize n k i)

/-- The (train, test) pairs yielded by `KFold(n_splits=k).split` on `n`
samples: for each test block, the train indices are all remaining indices
in increasing order. -/
def kfSplit (n k : Nat) : List (List Nat × List Nat) :=
  (kfTestIndices n k).map fun te => ((List.range n).filter (fun j => j ∉ te), te)

/- ### evaluate_model -/

/-- Calls observable in a run of `evaluate_model`: the sklearn
`train_test_split`, the classifier's `fit` and `predict`, and printing the
classification report. -/
inductive EEvent (α β : Type) where
  | trainTestSplit
  | fitCall (X : List α) (y : List β) (max_epochs : Nat)
  | predictCall (X : List α)
  | printReport
deriving DecidableEq

/-- The classifier-like object passed to `evaluate_model`: a mutable model
with state `S`, whose `fit(X, y, max_epochs=e)` updates the state and
whose `predict(X)` returns one row of per-class values for each sample. -/
structure ClassifierOps (α β ρ S : Type) where
  fit : S → List α → List β → Nat → S
  predict : S → List α → List (List ρ)

/-- numpy fancy indexing `xs[idx]`: select the entries at the given
indices. -/
def select {α : Type} (xs : List α) (idx : List Nat) : List α :=
  idx.filterMap fun i => xs[i]?

/-- Model of `np.argmax` over one row: index of the first occurrence of the
maximum (`0` on an empty row). `bv` is the best value so far, `bi` its
index, `i` the index of the next element. -/
def argmaxAux {ρ : Type} [LinearOrder ρ] : List ρ → ρ → Nat → Nat → Nat
  | [], _, bi, _ => bi
  | x :: xs, bv, bi, i =>
    if bv < x then argmaxAux xs x i (i + 1) else argmaxAux xs bv bi (i + 1)

/-- Model of `np.argmax(., axis=1)`: row-wise argmax of a matrix of per-class
values. -/
def argmaxRows {ρ : Type} [LinearOrder ρ] (m : List (List ρ)) : List Nat :=
  m.map fun r =>
    match r with
    | [] => 0
    | x :: xs => argmaxAux xs x 0 1

/-- Result of `evaluate_model`: the trace of external calls, the returned
`cv_scores` list, and the classifier's final state. -/
structure EvalResult (α β γ S : Type) where
  trace : List (EEvent α β)
  scores : List γ
  finalState : S

/-- The `if report:` block of `evaluate_model`: `train_test_split(X, y,
test_size=0.3)` (the external randomized splitter `tts` is passed in
explicitly), `model.fit` on the train part, `np.argmax(model.predict(...),
axis=1)` on the test part, and printing the classification report.
Returns the events and the fitted model state. -/
def reportPhase {α β ρ S : Type} [LinearOrder ρ] (ops : ClassifierOps α β ρ S)
    (tts : List α → List β → List α × List α × List β × List β)
    (s : S) (X : List α) (y : List β) (max_epochs : Nat) :
    List (EEvent α β) × S :=
  let p := tts X y
  let s1 := ops.fit s p.1 p.2.2.1 max_epochs
  let _y_pred := argmaxRows (ops.predict s1 p.2.1)
  ([EEvent.trainTestSplit, EEvent.fitCall p.1 p.2.2.1 max_epochs,
    EEvent.predictCall p.2.1, EEvent.printReport], s1)

/-- The K-fold loop of `evaluate_model`: for each `(train, test)` pair,
fit the model on `X[train], y[train]`, predict on `X[test]`, take the
row-wise argmax, and append `f1_score(y[test], y_pred, average='macro')`
(the external scorer `f1` is passed in explicitly). The model state is
threaded through the folds. -/
def runFolds {α β γ ρ S : Type} [LinearOrder ρ] (ops : ClassifierOps α β ρ S)
    (f1 : List β → List Nat → γ) (X : List α) (y : List β) (max_epochs : Nat) :
    S → List (List Nat × List Nat) → List (EEvent α β) × List γ × S
  | s, [] => ([], [], s)
  | s, f :: rest =>
    let Xtr := select X f.1
    let ytr := select y f.1
    let Xte := select X f.2
    let s1 := ops.fit s Xtr ytr max_epochs
    let y_pred := argmaxRows (ops.predict s1 Xte)
    let sc := f1 (select y f.2) y_pred
    let r := runFolds ops f1 X y max_epochs s1 rest
    (EEvent.fitCall Xtr ytr max_epochs :: EEvent.predictCall Xte :: r.1,
     sc :: r.2.1, r.2.2)

/-- Function `evaluate_model` from `src/utils/embed.py`: when `report` is true,
first run the train/test-split report block, then K-fold cross-validation
with `KFold(n_splits=cv)` over the indices of `X`, returning the list of
per-fold macro-F1 scores. In the source `max_epochs` defaults to `10`,
`cv` to `5` and `report` to `True`. -/
def evaluate_model {α β γ ρ S : Type} [LinearOrder ρ] (ops : ClassifierOps α β ρ S)
    (tts : List α → List β → List α × List α × List β × List β)
    (f1 : List β → List Nat → γ)
    (model : S) (X : List α) (y : List β) (max_epochs cv : Nat) (report : Bool) :
    EvalResult α β γ S :=
  let p1 := if report then reportPhase ops tts model X y max_epochs else ([], model)
  let r := runFolds ops f1 X y max_epochs p1.2 (kfSplit X.length cv)
  ⟨p1.1 ++ r.1, r.2.1, r.2.2⟩

/-- One fit of the classifier on a fold's train part: the state update
performed at the top of each loop iteration of `evaluate_model`. -/
def fitStep {α β ρ S : Type} (ops : ClassifierOps α β ρ S)
    (X : List α) (y : List β) (max_epochs : Nat)
    (s : S) (f : List Nat × List Nat) : S :=
  ops.fit s (select X f.1) (select y f.1) max_epochs

/-- The score appended for one fold: the external scorer applied to the
fold's true test labels and the row-wise argmax of the predictions of the
just-fitted model on the fold's test samples. -/
def foldScore {α β γ ρ S : Type} [LinearOrder ρ] (ops : ClassifierOps α β ρ S)
    (f1 : List β → List Nat → γ) (X : List α) (y : List β) (max_epochs : Nat)
    (s : S) (f : List Nat × List Nat) : γ :=
  f1 (select y f.2)
    (argmaxRows (ops.predict (fitStep ops X y max_epochs s f) (select X f.2)))

/-- Recognizer for `model.fit` calls in a trace. -/
def isFitCall {α β : Type} : EEvent α β → Bool
  | EEvent.fitCall _ _ _ => true
  | _ => false

/- ### Helper lemmas -/

theorem foldStart_succ (n k i : Nat) :
    foldStart n k (i + 1) = foldStart n k i + foldSize n k i := rfl

theorem foldStart_mono (n k : Nat) : Monotone (foldStart n k) :=
  monotone_nat_of_le_succ fun i => Nat.le_add_right _ _

theorem foldStart_eq (n k : Nat) : ∀ m, foldStart n k m = m * (n / k) + min m (n % k)
  | 0 => by simp [foldStart]
  | m + 1 => by
    rw [foldStart_succ, foldStart_eq n k m]
    simp only [foldSize, Nat.succ_mul]
    by_cases h : m < n % k
    · simp only [if_pos h]
      omega
    · simp only [if_neg h]
      omega

theorem foldStart_self (n k : Nat) (hk : 0 < k) : foldStart n k k = n := by
  rw [foldStart_eq]
  have h1 : n % k < k := Nat.mod_lt _ hk
  rw [Nat.min_eq_right (Nat.le_of_lt h1)]
  exact Nat.div_add_mod n k

theorem exists_fold_index (n k j : Nat) :
    ∀ m, j < foldStart n k m →
      ∃ i, i < m ∧ foldStart n k i ≤ j ∧ j < foldStart n k (i + 1)
  | 0, h => absurd h (by simp [foldStart])
  | m + 1, h => by
    by_cases hm : foldStart n k m ≤ j
    · exact ⟨m, Nat.lt_succ_self m, hm, h⟩
    · obtain ⟨i, hi, h1, h2⟩ := exists_fold_index n k j m (by omega)
      exact ⟨i, by omega, h1, h2⟩

theorem kfTestIndices_getD (n k i : Nat) (h : i < k) :
    (kfTestIndices n k).getD i [] = List.range' (foldStart n k i) (foldSize n k i) := by
  simp [kfTestIndices, List.getD, List.getElem?_map, List.getElem?_range, h]

theorem kfSplit_length (n k : Nat) : (kfSplit n k).length = k := by
  simp [kfSplit, kfTestIndices]

theorem runFolds_scores_length {α β γ ρ S : Type} [LinearOrder ρ]
    (ops : ClassifierOps α β ρ S) (f1 : List β → List Nat → γ)
    (X : List α) (y : List β) (e : Nat) (s : S)
    (folds : List (List Nat × List Nat)) :
    (runFolds ops f1 X y e s folds).2.1.length = folds.length := by
  induction folds generalizing s with
  | nil => rfl
  | cons f rest ih => simp [runFolds, ih]

theorem runFolds_scores {α β γ ρ S : Type} [LinearOrder ρ]
    (ops : ClassifierOps α β ρ S) (f1 : List β → List Nat → γ)
    (X : List α) (y : List β) (e : Nat) (s : S)
    (folds : List (List Nat × List Nat)) :
    (runFolds ops f1 X y e s folds).2.1 =
      List.zipWith (foldScore ops f1 X y e)
        (List.scanl (fitStep ops X y e) s folds) folds := by
  induction folds generalizing s with
  | nil => rfl
  | cons f rest ih =>
    simp only [runFolds, List.scanl, List.zipWith, ih, foldScore, fitStep]

theorem runFolds_finalState {α β γ ρ S : Type} [LinearOrder ρ]
    (ops : ClassifierOps α β ρ S) (f1 : List β → List Nat → γ)
    (X : List α) (y : List β) (e : Nat) (s : S)
    (folds : List (List Nat × List Nat)) :
    (runFolds ops f1 X y e s folds).2.2 =
      List.foldl (fitStep ops X y e) s folds := by
  induction folds generalizing s with
  | nil => rfl
  | cons f rest ih => simp only [runFolds, List.foldl, ih, fitStep]

theorem runFolds_fit_count {α β γ ρ S : Type} [LinearOrder ρ]
    (ops : ClassifierOps α β ρ S) (f1 : List β → List Nat → γ)
    (X : List α) (y : List β) (e : Nat) (s : S)
    (folds : List (List Nat × List Nat)) :
    (runFolds ops f1 X y e s folds).1.countP isFitCall = folds.length := by
  induction folds generalizing s with
  | nil => rfl
  | cons f rest ih =>
    simp [runFolds, List.countP_cons, isFitCall, ih]

theorem runFolds_no_split {α β γ ρ S : Type} [LinearOrder ρ]
    (ops : ClassifierOps α β ρ S) (f1 : List β → List Nat → γ)
    (X : List α) (y : List β) (e : Nat) (s : S)
    (folds : List (List Nat × List Nat)) :
    ∀ ev ∈ (runFolds ops f1 X y e s folds).1, ev ≠ EEvent.trainTestSplit := by
  induction folds generalizing s with
  | nil => intro ev h; cases h
  | cons f rest ih =>
    intro ev h
    simp only [runFolds, List.mem_cons] at h
    rcases h with h | h | h
    · subst h; intro hc; cases hc
    · subst h; intro hc; cases hc
    · exact ih _ ev h

/- ### Claim theorems -/

/-- C2: `train_embeddings` constructs the relations reader with exactly
the given `input_path` and `delimiter`, constructs the Poincaré trainer
forwarding `size`, `alpha`, `burn_in`, `burn_in_alpha`, `workers` and
`negative` unchanged, trains it forwarding `epochs`, `print_every` and
`batch_size` unchanged, and then saves the trained vectors to
`output_path` in the library's word2vec text format — in exactly that
order. -/
theorem train_embeddings_forwards_params {P : Type}
    (input_path delimiter output_path : String)
    (size alpha burn_in burn_in_alpha workers negative epochs print_every batch_size : P) :
    (train_embeddings input_path delimiter output_path size alpha burn_in
        burn_in_alpha workers negative epochs print_every batch_size).trace =
      [GEvent.poincareRelations input_path delimiter,
       GEvent.poincareInit size alpha burn_in burn_in_alpha workers negative,
       GEvent.trainCall epochs print_every batch_size,
       GEvent.saveWord2vecFormat output_path] := rfl

/-- C9: `train_embeddings` returns `None` (a bare `return`), and the only
file written during a call is the one at `output_path`. -/
theorem train_embeddings_frame {P : Type}
    (input_path delimiter output_path : String)
    (size alpha burn_in burn_in_alpha workers negative epochs print_every batch_size : P) :
    (train_embeddings input_path delimiter output_path size alpha burn_in
        burn_in_alpha workers negative epochs print_every batch_size).ret = none ∧
      writesOf (train_embeddings input_path delimiter output_path size alpha burn_in
        burn_in_alpha workers negative epochs print_every batch_size).trace =
        [output_path] :=
  ⟨rfl, rfl⟩

/-- C7: the `delim` parameter of `load_embeddings` has no effect on the
result — the source always parses with the hard-coded single-space
delimiter. -/
theorem load_embeddings_delim_unused (lines : List String) (d1 d2 : String) :
    load_embeddings lines d1 = load_embeddings lines d2 := rfl

/-- C8: whenever `load_embeddings` returns a dataframe, its columns are
exactly `['node', 'x', 'y']`; and (given that reading the file itself
succeeded) it returns successfully exactly when the parsed table after
`reset_index` has exactly three columns. -/
theorem load_embeddings_columns_spec (lines : List String) (d : String) :
    (∀ df, load_embeddings lines d = Except.ok df → df.columns = ["node", "x", "y"]) ∧
    ∀ t, readTableSpace lines = Except.ok t →
      ((load_embeddings lines d).isOk ↔ (resetIndex t).columns.length = 3) := by
  cases h : readTableSpace lines with
  | error e =>
    refine ⟨?_, ?_⟩
    · intro df hdf
      simp only [load_embeddings, h, Bind.bind, Except.bind] at hdf
      exact Except.noConfusion hdf
    · intro t ht
      exact Except.noConfusion ht
  | ok t0 =>
    refine ⟨?_, ?_⟩
    · intro df hdf
      simp only [load_embeddings, h, Bind.bind, Except.bind, setColumns] at hdf
      split at hdf
      · cases hdf
        rfl
      · exact Except.noConfusion hdf
    · intro t ht
      cases ht
      simp only [load_embeddings, h, Bind.bind, Except.bind, setColumns]
      by_cases hc : (["node", "x", "y"] : List String).length = (resetIndex t0).columns.length
      · simp only [if_pos hc, Except.isOk, Except.toBool]
        simp at hc
        simp [hc.symm]
      · simp only [if_neg hc, Except.isOk, Except.toBool]
        simp at hc
        simp [Ne.symm hc]

/-- Witness for C8 at a concrete two-dimensional embedding file: the
header `a b` with one data row `w 1 2`. -/
theorem load_embeddings_columns_spec_witness :
    (DataFrame.mk [none] [["0"]] ["node", "x", "y"] [["w", "1", "2"]]).columns =
        ["node", "x", "y"] ∧
      ((load_embeddings ["a b", "w 1 2"] ",").isOk ↔
        (resetIndex (DataFrame.mk [none] [["w"]] ["a", "b"] [["1", "2"]])).columns.length = 3) :=
  ⟨(load_embeddings_columns_spec ["a b", "w 1 2"] ",").1
      (DataFrame.mk [none] [["0"]] ["node", "x", "y"] [["w", "1", "2"]]) rfl,
   (load_embeddings_columns_spec ["a b", "w 1 2"] ",").2
      (DataFrame.mk [none] [["w"]] ["a", "b"] [["1", "2"]]) rfl⟩

/-- On a three-dimensional embedding file the two extra fields per row
form a two-level implicit index, `reset_index` produces four columns, and
the three-name column assignment fails — `load_embeddings` only succeeds
on two-dimensional files. -/
theorem load_embeddings_three_dims_fails :
    (load_embeddings ["N 3", "w 1 2 3"] " ").isOk = false := by decide

/-- C3: the folds of `KFold(n_splits=k)` over `n` samples partition the
index set: in each fold, train and test are disjoint and cover all
indices, and every index lies in the test block of exactly one fold. -/
theorem kfold_split_partition (n k : Nat) (hk : 0 < k) :
    (∀ f ∈ kfSplit n k,
       (∀ j, (j ∈ f.1 ∨ j ∈ f.2) ↔ j < n) ∧ ∀ j, ¬(j ∈ f.1 ∧ j ∈ f.2)) ∧
    ∀ j, j < n → ∃! i, i < k ∧ j ∈ (kfTestIndices n k).getD i [] := by
  have hbound : ∀ i, i < k → foldStart n k (i + 1) ≤ n := by
    intro i hi
    have := foldStart_mono n k (Nat.succ_le_of_lt hi)
    rwa [foldStart_self n k hk] at this
  constructor
  · intro f hf
    rw [kfSplit, List.mem_map] at hf
    obtain ⟨te, hte, rfl⟩ := hf
    rw [kfTestIndices, List.mem_map] at hte
    obtain ⟨i, hi, rfl⟩ := hte
    rw [List.mem_range] at hi
    have hte_lt : ∀ j, j ∈ List.range' (foldStart n k i) (foldSize n k i) → j < n := by
      intro j hj
      rw [List.mem_range'_1] at hj
      have := hbound i hi
      rw [foldStart_succ] at this
      omega
    constructor
    · intro j
      constructor
      · rintro (hj | hj)
        · simp only [List.mem_filter, List.mem_range] at hj
          exact hj.1
        · exact hte_lt j hj
      · intro hj
        by_cases hmem : j ∈ List.range' (foldStart n k i) (foldSize n k i)
        · exact Or.inr hmem
        · exact Or.inl (List.mem_filter.mpr ⟨List.mem_range.mpr hj, by simp [hmem]⟩)
    · intro j hj
      obtain ⟨h1, h2⟩ := hj
      simp only [List.mem_filter, decide_eq_true_eq] at h1
      exact h1.2 h2
  · intro j hj
    have hjk : j < foldStart n k k := by rwa [foldStart_self n k hk]
    obtain ⟨i, hi, hl, hr⟩ := exists_fold_index n k j k hjk
    refine ⟨i, ⟨hi, ?_⟩, ?_⟩
    · rw [kfTestIndices_getD n k i hi, List.mem_range'_1, ← foldStart_succ]
      exact ⟨hl, hr⟩
    · rintro i' ⟨hi', hmem'⟩
      rw [kfTestIndices_getD n k i' hi', List.mem_range'_1, ← foldStart_succ] at hmem'
      by_contra hne
      rcases Nat.lt_or_ge i' i with hlt | hge
      · have hm2 : foldStart n k (i' + 1) ≤ foldStart n k i := foldStart_mono n k (by omega)
        omega
      · have hm2 : foldStart n k (i + 1) ≤ foldStart n k i' := foldStart_mono n k (by omega)
        omega

/-- Witness for C3 at `n = 5`, `k = 2`: index `0` lies in the first fold's
train or test part exactly because `0 < 5`. -/
theorem kfold_split_partition_witness :
    (0 ∈ ((kfSplit 5 2).headD ([], [])).1 ∨ 0 ∈ ((kfSplit 5 2).headD ([], [])).2) ↔ 0 < 5 :=
  ((kfold_split_partition 5 2 (by decide)).1 ((kfSplit 5 2).headD ([], []))
    (by decide)).1 0

/-- C4: `evaluate_model` returns exactly one score per fold, i.e. a list
of length `cv`. -/
theorem evaluate_model_one_score_per_fold {α β γ ρ S : Type} [LinearOrder ρ]
    (ops : ClassifierOps α β ρ S)
    (tts : List α → List β → List α × List α × List β × List β)
    (f1 : List β → List Nat → γ) (model : S) (X : List α) (y : List β)
    (max_epochs cv : Nat) (report : Bool) :
    (evaluate_model ops tts f1 model X y max_epochs cv report).scores.length = cv := by
  cases report <;>
    simp [evaluate_model, runFolds_scores_length, kfSplit_length]

/-- C5: in fold order, the `i`-th score returned by `evaluate_model` is
the external scorer applied to `y[test_i]` and the row-wise argmax of
`model.predict(X[test_i])`, where the model carries the state left by all
earlier fits and was just fitted on `(X[train_i], y[train_i])` with the
given `max_epochs`. -/
theorem evaluate_model_scores_spec {α β γ ρ S : Type} [LinearOrder ρ]
    (ops : ClassifierOps α β ρ S)
    (tts : List α → List β → List α × List α × List β × List β)
    (f1 : List β → List Nat → γ) (model : S) (X : List α) (y : List β)
    (max_epochs cv : Nat) (report : Bool) :
    (evaluate_model ops tts f1 model X y max_epochs cv report).scores =
      List.zipWith (foldScore ops f1 X y max_epochs)
        (List.scanl (fitStep ops X y max_epochs)
          (if report then (reportPhase ops tts model X y max_epochs).2 else model)
          (kfSplit X.length cv))
        (kfSplit X.length cv) := by
  cases report <;> simp [evaluate_model, runFolds_scores]

/-- C6: `model.fit` is invoked exactly `cv` times when `report` is false
and `cv + 1` times when `report` is true, on the same model object: the
final state is the left fold of the per-fold fit over the state left by
the (optional) report-phase fit. -/
theorem evaluate_model_fit_invocations {α β γ ρ S : Type} [LinearOrder ρ]
    (ops : ClassifierOps α β ρ S)
    (tts : List α → List β → List α × List α × List β × List β)
    (f1 : List β → List Nat → γ) (model : S) (X : List α) (y : List β)
    (max_epochs cv : Nat) (report : Bool) :
    (evaluate_model ops tts f1 model X y max_epochs cv report).trace.countP isFitCall =
        (if report then 1 else 0) + cv ∧
      (evaluate_model ops tts f1 model X y max_epochs cv report).finalState =
        List.foldl (fitStep ops X y max_epochs)
          (if report then (reportPhase ops tts model X y max_epochs).2 else model)
          (kfSplit X.length cv) := by
  cases report <;>
    simp [evaluate_model, runFolds_fit_count, runFolds_finalState, kfSplit_length,
      reportPhase, List.countP_cons, isFitCall, Nat.add_comm]

/-- C1 (amended): when `report` is true the train/test-split report phase
runs first and the K-fold phase follows it, the very first event being the
`train_test_split`; when `report` is false only the K-fold phase runs. -/
theorem evaluate_model_phase_order {α β γ ρ S : Type} [LinearOrder ρ]
    (ops : ClassifierOps α β ρ S)
    (tts : List α → List β → List α × List α × List β × List β)
    (f1 : List β → List Nat → γ) (model : S) (X : List α) (y : List β)
    (max_epochs cv : Nat) :
    (evaluate_model ops tts f1 model X y max_epochs cv true).trace =
        (reportPhase ops tts model X y max_epochs).1 ++
          (runFolds ops f1 X y max_epochs (reportPhase ops tts model X y max_epochs).2
            (kfSplit X.length cv)).1 ∧
      (reportPhase ops tts model X y max_epochs).1.head? = some EEvent.trainTestSplit ∧
      (∀ ev ∈ (runFolds ops f1 X y max_epochs (reportPhase ops tts model X y max_epochs).2
          (kfSplit X.length cv)).1, ev ≠ EEvent.trainTestSplit) ∧
      (evaluate_model ops tts f1 model X y max_epochs cv false).trace =
        (runFolds ops f1 X y max_epochs model (kfSplit X.length cv)).1 := by
  refine ⟨rfl, rfl, ?_, rfl⟩
  exact runFolds_no_split ops f1 X y max_epochs _ _

/-- A trivial concrete classifier used to evaluate `evaluate_model` at a
concrete input. -/
def opsC : ClassifierOps Nat Nat Nat Unit :=
  ⟨fun _ _ _ _ => (), fun _ X => X.map fun x => [x]⟩

/-- A trivial concrete train/test splitter. -/
def ttsC : List Nat → List Nat → List Nat × List Nat × List Nat × List Nat :=
  fun X y => (X, [], y, [])

/-- A trivial concrete scorer. -/
def f1C : List Nat → List Nat → Nat := fun _ _ => 0

/-- C1 (counterexample): with `report = False`, `evaluate_model` performs
no train/test split at all — the claim that every call performs a
train/test split before the K-fold phase fails at this input. -/
theorem evaluate_model_no_split_when_report_false :
    EEvent.trainTestSplit ∉
      (evaluate_model opsC ttsC f1C () [0, 1, 2, 3] [0, 1, 0, 1] 10 2 false).trace := by
  decide

end Embed
